import Mathlib

/-!
# Shallow embedding of `src/bot.js` (isomeruk/rbjs)

The program is a single-file Node.js reconciliation bot.  Its mutable state is
the `Bot` object: a configuration (`this.config`), a registry mapping streamer
names to runtime records (`this.streamers`, a JS object and hence an ordered
map with unique keys), a `running` flag and a pending-timer handle
(`this.timeout`).  We embed that state as `BotState` below and every method of
the `Bot` class as a pure state transformer.  A JS `throw` is modelled with
`Except`: each operation returns the thrown error (or its normal result)
together with the state at the moment of the throw/return — in this source
every `throw` happens before any mutation, so the state component equals the
input state on every error path.

External effects are modelled as explicit inputs/outputs:
* the status probe (`getInfo`, an HTTP GET) becomes a `ProbeResult` input;
* `spawn` always yields a fresh live handle (spawn errors are delivered later
  through the `error` event, per Node semantics), modelled by `newProc`;
* `proc.kill('SIGINT')` records a `killed` flag on the handle;
* child `exit` / `error` events become the transitions `onExit` / `onError`,
  which embed the observer callbacks registered at lines 185–208;
* reading `/data/config.json` becomes the `Config` argument of `tick`;
  `fs.writeFileSync` persists the very config value held in the state, so it
  needs no separate model.

`this.streamers` is embedded as an association list `Registry`; JS object
semantics (unique keys) corresponds to `(keysS l).Nodup`, which appears as a
well-formedness hypothesis where a proof needs it.
-/

/-- A child-process handle as the bot observes it: `exitCode` is `null`
(`none`) until the process terminates (and stays `null` on a signal death),
and `killed` records whether `kill('SIGINT')` was sent to it. -/
structure Proc where
  exitCode : Option Int
  killed : Bool
deriving DecidableEq

/-- The status payload returned by the probe; the bot only ever consults its
`room_status` field (line 170), so only that field is embedded. -/
structure StatusPayload where
  roomStatus : String
deriving DecidableEq

/-- Result of `getInfo` (lines 150–160): the parsed payload on success, or the
literal `false` that the `catch` branch returns on any network/parse error. -/
inductive ProbeResult where
  | success (payload : StatusPayload)
  | failure
deriving DecidableEq

/-- `this.streamers[name].meta` after `updateStreamer` ran: the payload, or
`false` (embedded as `none`) when the probe failed. -/
def probeMeta : ProbeResult → Option StatusPayload
  | .success payload => some payload
  | .failure => none

/-- The test `info['room_status'] === 'public'` (line 170).  When the probe
failed, `info` is the boolean `false` and the property access yields
`undefined`, which is not `'public'`; no exception is raised. -/
def isPublic : ProbeResult → Bool
  | .success payload => payload.roomStatus == "public"
  | .failure => false

/-- One entry of `this.streamers` (created at lines 240–245). `proc = none`
covers both JS values `null` and `false` that the source stores there. -/
structure StreamerRec where
  recording : Bool
  paused : Bool
  proc : Option Proc
  meta : Option StatusPayload
deriving DecidableEq

/-- The registry `this.streamers`: a JS object, i.e. an ordered map from
names to records, embedded as an association list. -/
abbrev Registry := List (String × StreamerRec)

/-- The persisted configuration `/data/config.json`; only the fields the bot
reads.  `recordCmd`/`recordCmdArgs` feed `spawn` and never influence the
control flow embedded here, but are kept for completeness. -/
structure Config where
  streamers : List String
  checkInterval : Option Nat
  recordCmd : String
  recordCmdArgs : List String
deriving DecidableEq

/-- The whole mutable state of the `Bot` instance.  `timeoutPending` is true
iff `this.timeout` currently holds a scheduled (not yet fired) timer. -/
structure BotState where
  config : Config
  streamers : Registry
  running : Bool
  timeoutPending : Bool
deriving DecidableEq

/-- Errors a method can throw: `new Error(msg)` or a runtime `TypeError`
(property access/assignment on `undefined`). -/
inductive JsError where
  | error (msg : String)
  | typeError
deriving DecidableEq

/-- JS `list.includes(x)` for string arrays. -/
def memS : List String → String → Bool
  | [], _ => false
  | x :: t, n => x == n || memS t n

/-- `this.streamers[n]`: first binding of `n`, if any. -/
def lookupS : Registry → String → Option StreamerRec
  | [], _ => none
  | (k, v) :: t, n => if k = n then some v else lookupS t n

/-- `this.streamers[n] = r`: replace the (first) binding of `n`, or append a
new one — on a JS object the key is unique, so this is plain assignment. -/
def setS : Registry → String → StreamerRec → Registry
  | [], n, r => [(n, r)]
  | (k, v) :: t, n, r => if k = n then (k, r) :: t else (k, v) :: setS t n r

/-- `delete this.streamers[n]`. -/
def eraseS : Registry → String → Registry
  | [], _ => []
  | (k, v) :: t, n => if k = n then t else (k, v) :: eraseS t n

/-- `Object.keys(this.streamers)`. -/
def keysS (l : Registry) : List String := l.map Prod.fst

namespace Bot

/-- `pause()` (lines 37–49): throws when not running; otherwise clears the
pending timer and drops the `running` flag. -/
def pause (s : BotState) : Except JsError Bool × BotState :=
  if s.running then
    (.ok true, { s with timeoutPending := false, running := false })
  else
    (.error (.error "Bot not running"), s)

/-- `addStreamer(name)` (lines 51–74): validates the name, rejects
duplicates, clears the pending timer, appends the name to the configured list
and persists it.  The `this.run()` the source then fires when running is an
asynchronous extra reconciliation pass; it is modelled as a separate
subsequent `tick` transition. -/
def addStreamer (name : String) (s : BotState) : Except JsError Bool × BotState :=
  if name = "" then
    (.error (.error "No streamer parameter supplied"), s)
  else if memS s.config.streamers name then
    (.error (.error "Streamer already in streamers list"), s)
  else
    (.ok true, { s with
      timeoutPending := false,
      config := { s.config with streamers := s.config.streamers ++ [name] } })

/-- `removeStreamer(name)` (lines 76–91): validates, then filters the name
out of the configured list and persists.  The registry and its process
handles are not touched. -/
def removeStreamer (name : String) (s : BotState) : Except JsError Bool × BotState :=
  if name = "" then
    (.error (.error "No streamer parameter supplied"), s)
  else if !memS s.config.streamers name then
    (.error (.error "Streamer is not in streamers list"), s)
  else
    (.ok true, { s with
      config := { s.config with streamers := s.config.streamers.filter (fun x => x != name) } })

/-- `pauseStreamer(name)` (lines 93–112): after the membership check (config
list OR registry keys), the source dereferences `this.streamers[name]`; when
the record is missing that raises a `TypeError`.  Otherwise it signals the
stored process if one is present (`proc.kill('SIGINT')`) and sets
`paused = true`.  Note it does not touch `recording`. -/
def pauseStreamer (name : String) (s : BotState) : Except JsError Bool × BotState :=
  if name = "" then
    (.error (.error "No streamer parameter supplied"), s)
  else if !memS s.config.streamers name && !memS (keysS s.streamers) name then
    (.error (.error "Streamer is not in streamers list"), s)
  else
    match lookupS s.streamers name with
    | none => (.error .typeError, s)
    | some r =>
      let r1 := match r.proc with
        | some p => { r with proc := some { p with killed := true } }
        | none => r
      (.ok true, { s with streamers := setS s.streamers name { r1 with paused := true } })

/-- `resumeStreamer(name)` (lines 114–133): same membership check; the
assignment `this.streamers[name].paused = false` raises a `TypeError` when
the record is missing.  The conditional `this.run()` is modelled as a
separate subsequent `tick`. -/
def resumeStreamer (name : String) (s : BotState) : Except JsError Bool × BotState :=
  if name = "" then
    (.error (.error "No streamer parameter supplied"), s)
  else if !memS s.config.streamers name && !memS (keysS s.streamers) name then
    (.error (.error "Streamer is not in streamers list"), s)
  else
    match lookupS s.streamers name with
    | none => (.error .typeError, s)
    | some r =>
      (.ok true, { s with streamers := setS s.streamers name { r with paused := false } })

/-- `getStatus()` (lines 212–218): never throws. -/
def getStatus (s : BotState) : Bool × Config × Registry :=
  (s.running, s.config, s.streamers)

/-- The `exit` observer registered at lines 185–195: if the name is still
configured, reset `proc` (to the JS literal `false`, i.e. absent) and
`recording`; otherwise delete the record.  The dereference
`this.streamers[name].proc = false` raises a `TypeError` when the record is
gone in the still-configured branch. -/
def onExit (name : String) (s : BotState) : Except JsError Unit × BotState :=
  if memS s.config.streamers name then
    match lookupS s.streamers name with
    | none => (.error .typeError, s)
    | some r =>
      (.ok (), { s with streamers := setS s.streamers name { r with proc := none, recording := false } })
  else
    (.ok (), { s with streamers := eraseS s.streamers name })

/-- The `error` observer registered at lines 197–208: sends `SIGINT` to the
erroring process and then applies exactly the reset-or-delete logic of the
exit observer (the signalled handle is discarded by that very logic). -/
def onError (name : String) (s : BotState) : Except JsError Unit × BotState :=
  if memS s.config.streamers name then
    match lookupS s.streamers name with
    | none => (.error .typeError, s)
    | some r =>
      (.ok (), { s with streamers := setS s.streamers name { r with proc := none, recording := false } })
  else
    (.ok (), { s with streamers := eraseS s.streamers name })

end Bot

/-- A handle freshly returned by `spawn` (line 177): not exited, not
signalled. -/
def newProc : Proc := { exitCode := none, killed := false }

/-- The aliveness test of the sync step (line 230):
`this.streamers[x].proc && !this.streamers[x].proc.exitCode`.
It passes iff a handle is present and its `exitCode` is falsy — `null` (still
running, or killed by a signal) or the number `0`. -/
def procCheck (r : StreamerRec) : Bool :=
  match r.proc with
  | none => false
  | some p =>
    match p.exitCode with
    | none => true
    | some c => c == 0

/-- The default record created for a streamer newly seen in the configuration
(lines 240–245). -/
def defaultRec : StreamerRec :=
  { recording := false, paused := false, proc := none, meta := none }

/-- One pass of the sync loop body for one configured name (lines 228–246):
an existing record marked `recording` whose aliveness test fails is reset
(`recording = false`, `proc = null`); a missing record is created with
defaults; anything else is untouched. -/
def syncOne (l : Registry) (n : String) : Registry :=
  match lookupS l n with
  | some r =>
    if r.recording then
      if procCheck r then l
      else setS l n { r with recording := false, proc := none }
    else l
  | none => setS l n defaultRec

/-- The sync step (lines 227–247): `this.config.streamers.forEach(...)`. -/
def syncGo : List String → Registry → Registry
  | [], l => l
  | n :: t, l => syncGo t (syncOne l n)

/-- The prune step (lines 250–255): every registry key absent from the
configured list is deleted unless it is currently recording.  The source
collects the keys first and then deletes; on an object that equals keeping
exactly the configured-or-recording entries. -/
def pruneGo (cfg : List String) : Registry → Registry
  | [] => []
  | (k, v) :: t =>
    if memS cfg k || v.recording then (k, v) :: pruneGo cfg t else pruneGo cfg t

namespace Bot

/-- `updateStreamer(name)` (lines 162–210) given the probe's answer for that
name.  The source first assigns `this.streamers[name].meta = info` — a
`TypeError` when the record is missing — then returns early when paused, and
otherwise spawns a recorder iff the payload says `public` and the record is
not already recording.  The returned Bool is `true` iff a process was
spawned on this call. -/
def updateStreamer (pr : ProbeResult) (n : String) (s : BotState) :
    Except JsError Bool × BotState :=
  match lookupS s.streamers n with
  | none => (.error .typeError, s)
  | some r =>
    if r.paused then
      (.ok false, { s with streamers := setS s.streamers n { r with meta := probeMeta pr } })
    else if isPublic pr && !r.recording then
      let r1 : StreamerRec :=
        { r with meta := probeMeta pr, proc := some newProc, recording := true }
      (.ok true, { s with streamers := setS s.streamers n r1 })
    else
      (.ok false, { s with streamers := setS s.streamers n { r with meta := probeMeta pr } })

/-- `Promise.all(Object.keys(this.streamers).map(...))` (line 258), with the
spawn count accumulated.  Each `updateStreamer` touches only its own name's
record (names on an object are distinct), so the concurrent JS execution is
equivalent to this left-to-right fold.  A rejection (only possible through
the missing-record `TypeError`) makes the awaiting `run` throw. -/
def updateAllGo (p : String → ProbeResult) : List String → BotState → Except JsError Nat × BotState
  | [], s => (.ok 0, s)
  | n :: t, s =>
    match updateStreamer (p n) n s with
    | (.ok sp, s1) =>
      match updateAllGo p t s1 with
      | (.ok m, s2) => (.ok ((if sp then 1 else 0) + m), s2)
      | (.error e, s2) => (.error e, s2)
    | (.error e, s1) => (.error e, s1)

/-- `run()` (lines 220–263) up to and including the awaited `Promise.all`:
set `running`, clear the timer handle, reload the (given) configuration, run
the sync and prune steps, then probe-and-converge every registry entry. -/
def tickBody (c : Config) (p : String → ProbeResult) (s : BotState) :
    Except JsError Nat × BotState :=
  let s0 := { s with running := true, timeoutPending := false, config := c }
  let s1 := { s0 with streamers := syncGo c.streamers s0.streamers }
  let s2 := { s1 with streamers := pruneGo c.streamers s1.streamers }
  updateAllGo p (keysS s2.streamers) s2

/-- The tail of `run()` (line 261): `this.timeout = setTimeout(...)`.  Note
the source schedules the successor tick unconditionally — it does not consult
`this.running`. -/
def tickResched (s : BotState) : BotState := { s with timeoutPending := true }

/-- One whole tick of `run()`: the body followed, on normal completion, by
the unconditional reschedule.  Returns the number of processes spawned. -/
def tick (c : Config) (p : String → ProbeResult) (s : BotState) :
    Except JsError Nat × BotState :=
  match tickBody c p s with
  | (.ok m, s') => (.ok m, tickResched s')
  | (.error e, s') => (.error e, s')

end Bot

/-- The transport envelope of every admin route (lines 288–302).  On a
callback throw, the `catch` block evaluates `this.logger.info(...)`: the
function is invoked as a plain call in sloppy mode, so `this` is the global
object, which has no `logger` binding (the module-level `logger` is a
`const`), and the access raises a `TypeError` that escapes `apiResponse`
itself.  The `{status:'failure', message}` object is therefore unreachable. -/
def apiResponse {α : Type} (callback : Except JsError α) : Except JsError (String × Option α) :=
  match callback with
  | .ok d => .ok ("success", some d)
  | .error _ => .error .typeError


/-- The record produced by `updateStreamer` for an existing record `r` given
probe answer `pr`: `meta` is always overwritten; a recorder is spawned
(fresh handle, `recording = true`) iff not paused, the payload says
`public`, and not already recording. -/
def updRec (pr : ProbeResult) (r : StreamerRec) : StreamerRec :=
  if r.paused then { r with meta := probeMeta pr }
  else if isPublic pr && !r.recording then
    { r with meta := probeMeta pr, proc := some newProc, recording := true }
  else { r with meta := probeMeta pr }

/-- Whether `updateStreamer` spawns a process for record `r` on probe answer
`pr`. -/
def updSpawn (pr : ProbeResult) (r : StreamerRec) : Bool :=
  !r.paused && (isPublic pr && !r.recording)

/-- A record that is marked recording passes the sync step's aliveness
test. -/
def recChecked (r : StreamerRec) : Prop := r.recording = true → procCheck r = true

/-- A record that `updateStreamer` would not spawn for because its
non-recording cause is sticky: paused, or the probe does not say public. -/
def stableRec (pr : ProbeResult) (r : StreamerRec) : Prop :=
  r.recording = false → (r.paused = true ∨ isPublic pr = false)

/-- `updateStreamer` spawns nothing for this record on this probe answer. -/
def noSpawnRec (pr : ProbeResult) (r : StreamerRec) : Prop :=
  r.recording = true ∨ r.paused = true ∨ isPublic pr = false

/-- The registry state a completed tick leaves behind, for fixed
configuration `c` and probe behaviour `p`: every configured name has a
record, every configured recording record passes the aliveness test, and
every non-recording record has a sticky reason not to be started. -/
def TickStable (c : Config) (p : String → ProbeResult) (s : BotState) : Prop :=
  (∀ n ∈ c.streamers, (lookupS s.streamers n).isSome = true) ∧
  (∀ n ∈ c.streamers, ∀ r, lookupS s.streamers n = some r →
    r.recording = true → procCheck r = true) ∧
  (∀ n r, lookupS s.streamers n = some r → stableRec (p n) r)

/-- The registry invariant of the spec: a record marked `recording` owns a
process handle (one whose exit/error the observers have not yet delivered —
once they deliver, they clear the flag or the record, see `onExit`). -/
def InvRegistry (l : Registry) : Prop :=
  ∀ kv ∈ l, kv.2.recording = true → kv.2.proc.isSome = true

/-! ### Concrete fixtures used to evaluate the model on explicit inputs -/

/-- A small concrete configuration over the given names. -/
def sampleConfig (names : List String) : Config :=
  { streamers := names, checkInterval := none, recordCmd := "yt-dlp", recordCmdArgs := [] }

/-- A handle of a live (not yet exited, not signalled) child process. -/
def liveProc : Proc := { exitCode := none, killed := false }

/-- A handle of a child process that exited with code 0. -/
def exitedZeroProc : Proc := { exitCode := some 0, killed := false }

/-- A record currently recording through a live process. -/
def recRec : StreamerRec :=
  { recording := true, paused := false, proc := some liveProc, meta := none }

/-- A freshly idle record. -/
def idleRec : StreamerRec :=
  { recording := false, paused := false, proc := none, meta := none }

/-- A record still marked recording whose process exited with code 0. -/
def zombieRec : StreamerRec :=
  { recording := true, paused := false, proc := some exitedZeroProc, meta := none }

/-- A probe payload announcing a public broadcast. -/
def pubPayload : StatusPayload := { roomStatus := "public" }

/-! ## Basic facts about the registry embedding -/

theorem memS_iff_mem (l : List String) (n : String) : memS l n = true ↔ n ∈ l := by
  induction l with
  | nil => simp [memS]
  | cons x t ih =>
    simp only [memS, Bool.or_eq_true, beq_iff_eq, List.mem_cons, ih]
    constructor
    · rintro (h | h)
      · exact Or.inl h.symm
      · exact Or.inr h
    · rintro (h | h)
      · exact Or.inl h.symm
      · exact Or.inr h

theorem lookupS_setS_self (l : Registry) (n : String) (r : StreamerRec) :
    lookupS (setS l n r) n = some r := by
  induction l with
  | nil => simp [setS, lookupS]
  | cons kv t ih =>
    obtain ⟨k, v⟩ := kv
    by_cases h : k = n
    · simp [setS, lookupS, h]
    · simp [setS, lookupS, h, ih]

theorem lookupS_setS_ne (l : Registry) (n m : String) (r : StreamerRec) (h : m ≠ n) :
    lookupS (setS l n r) m = lookupS l m := by
  have hnm : ¬(n = m) := fun hh => h hh.symm
  induction l with
  | nil => simp [setS, lookupS, hnm]
  | cons kv t ih =>
    obtain ⟨k, v⟩ := kv
    by_cases hk : k = n
    · subst hk
      simp [setS, lookupS, hnm]
    · simp only [setS, hk, if_false, lookupS]
      by_cases hm : k = m
      · simp [hm]
      · simp [hm, ih]

theorem mem_keysS_of_lookupS (l : Registry) (n : String) (r : StreamerRec)
    (h : lookupS l n = some r) : n ∈ keysS l := by
  induction l with
  | nil => simp [lookupS] at h
  | cons kv t ih =>
    obtain ⟨k, v⟩ := kv
    simp only [keysS, List.map_cons]
    by_cases hk : k = n
    · subst hk
      exact List.mem_cons_self _ _
    · simp only [lookupS, hk, if_false] at h
      exact List.mem_cons_of_mem _ (ih h)

theorem lookupS_isSome_of_mem_keysS (l : Registry) (n : String)
    (h : n ∈ keysS l) : (lookupS l n).isSome = true := by
  induction l with
  | nil => simp [keysS] at h
  | cons kv t ih =>
    obtain ⟨k, v⟩ := kv
    by_cases hk : k = n
    · simp [lookupS, hk]
    · simp only [keysS, List.map_cons, List.mem_cons] at h
      rcases h with h | h
      · exact absurd h.symm hk
      · simpa [lookupS, hk] using ih h

theorem lookupS_mem (l : Registry) (n : String) (r : StreamerRec)
    (h : lookupS l n = some r) : (n, r) ∈ l := by
  induction l with
  | nil => simp [lookupS] at h
  | cons kv t ih =>
    obtain ⟨k, v⟩ := kv
    by_cases hk : k = n
    · subst hk
      have hv : v = r := by simpa [lookupS] using h
      subst hv
      exact List.mem_cons_self _ _
    · simp only [lookupS, hk, if_false] at h
      exact List.mem_cons_of_mem _ (ih h)

theorem keysS_setS_of_mem (l : Registry) (n : String) (r : StreamerRec)
    (h : (lookupS l n).isSome = true) : keysS (setS l n r) = keysS l := by
  induction l with
  | nil => simp [lookupS] at h
  | cons kv t ih =>
    obtain ⟨k, v⟩ := kv
    by_cases hk : k = n
    · simp [setS, keysS, hk]
    · simp only [lookupS, hk, if_false] at h
      simp only [setS, hk, if_false, keysS, List.map_cons] at ih ⊢
      rw [ih h]

theorem keysS_setS_of_none (l : Registry) (n : String) (r : StreamerRec)
    (h : lookupS l n = none) : keysS (setS l n r) = keysS l ++ [n] := by
  induction l with
  | nil => simp [setS, keysS]
  | cons kv t ih =>
    obtain ⟨k, v⟩ := kv
    by_cases hk : k = n
    · simp [lookupS, hk] at h
    · simp only [lookupS, hk, if_false] at h
      simp only [setS, hk, if_false, keysS, List.map_cons, List.cons_append] at ih ⊢
      rw [ih h]

theorem nodup_keysS_setS (l : Registry) (n : String) (r : StreamerRec)
    (h : (keysS l).Nodup) : (keysS (setS l n r)).Nodup := by
  cases hl : lookupS l n with
  | some v => rwa [keysS_setS_of_mem l n r (by simp [hl])]
  | none =>
    rw [keysS_setS_of_none l n r hl]
    have hn : n ∉ keysS l := by
      intro hmem
      have := lookupS_isSome_of_mem_keysS l n hmem
      simp [hl] at this
    simp [List.nodup_append, h, hn]

theorem lookupS_eraseS_self (l : Registry) (n : String)
    (h : (keysS l).Nodup) : lookupS (eraseS l n) n = none := by
  induction l with
  | nil => simp [eraseS, lookupS]
  | cons kv t ih =>
    obtain ⟨k, v⟩ := kv
    simp only [keysS, List.map_cons, List.nodup_cons] at h
    by_cases hk : k = n
    · subst hk
      simp only [eraseS, if_pos rfl]
      cases he : lookupS t k with
      | none => exact he
      | some r =>
        exact absurd (mem_keysS_of_lookupS t k r he) h.1
    · simp only [eraseS, hk, if_false, lookupS]
      exact ih h.2

/-! ## Facts about the prune step -/

theorem keysS_pruneGo_sublist (cfg : List String) (l : Registry) :
    (keysS (pruneGo cfg l)).Sublist (keysS l) := by
  induction l with
  | nil => simp [pruneGo, keysS]
  | cons kv t ih =>
    obtain ⟨k, v⟩ := kv
    by_cases h : (memS cfg k || v.recording) = true
    · simpa [pruneGo, h, keysS] using ih.cons₂ k
    · simp only [pruneGo, h, if_false]
      simpa [keysS] using ih.cons k

theorem nodup_keysS_pruneGo (cfg : List String) (l : Registry)
    (h : (keysS l).Nodup) : (keysS (pruneGo cfg l)).Nodup :=
  (keysS_pruneGo_sublist cfg l).nodup h

theorem lookupS_pruneGo_of_kept (cfg : List String) (l : Registry) (n : String)
    (r : StreamerRec) (h : lookupS l n = some r)
    (hkeep : (memS cfg n || r.recording) = true) :
    lookupS (pruneGo cfg l) n = some r := by
  induction l with
  | nil => simp [lookupS] at h
  | cons kv t ih =>
    obtain ⟨k, v⟩ := kv
    by_cases hk : k = n
    · subst hk
      have hv : v = r := by simpa [lookupS] using h
      subst hv
      simp [pruneGo, hkeep, lookupS]
    · simp only [lookupS, hk, if_false] at h
      by_cases hq : (memS cfg k || v.recording) = true
      · simp only [pruneGo, hq, if_true, lookupS, hk, if_false]
        exact ih h
      · simp only [pruneGo, hq, if_false]
        exact ih h

theorem lookupS_pruneGo_of_lookup (cfg : List String) (l : Registry) (n : String)
    (r : StreamerRec) (hnd : (keysS l).Nodup)
    (h : lookupS (pruneGo cfg l) n = some r) : lookupS l n = some r := by
  induction l with
  | nil => simp [pruneGo, lookupS] at h
  | cons kv t ih =>
    obtain ⟨k, v⟩ := kv
    simp only [keysS, List.map_cons, List.nodup_cons] at hnd
    by_cases hk : k = n
    · subst hk
      by_cases hq : (memS cfg k || v.recording) = true
      · have hv : v = r := by simpa [pruneGo, hq, lookupS] using h
        subst hv
        simp [lookupS]
      · exfalso
        simp only [pruneGo, hq, if_false] at h
        exact hnd.1 (mem_keysS_of_lookupS t k r (ih hnd.2 h))
    · simp only [lookupS, hk, if_false]
      by_cases hq : (memS cfg k || v.recording) = true
      · simp only [pruneGo, hq, if_true, lookupS, hk, if_false] at h
        exact ih hnd.2 h
      · simp only [pruneGo, hq, if_false] at h
        exact ih hnd.2 h

/-! ## Facts about the sync step -/

theorem lookupS_syncOne_ne (l : Registry) (n m : String) (h : m ≠ n) :
    lookupS (syncOne l n) m = lookupS l m := by
  unfold syncOne
  cases lookupS l n with
  | none => exact lookupS_setS_ne l n m defaultRec h
  | some r =>
    by_cases hr : r.recording
    · by_cases hc : procCheck r
      · simp [hr, hc]
      · simp [hr, hc, lookupS_setS_ne l n m _ h]
    · simp [hr]

theorem lookupS_syncOne_isSome (l : Registry) (n m : String)
    (h : (lookupS l m).isSome = true) : (lookupS (syncOne l n) m).isSome = true := by
  by_cases hm : m = n
  · subst hm
    unfold syncOne
    cases hl : lookupS l m with
    | none => simp [hl] at h
    | some r =>
      by_cases hr : r.recording
      · by_cases hc : procCheck r
        · simpa [hr, hc, hl]
        · simp [hr, hc, lookupS_setS_self]
      · simpa [hr, hl]
  · rwa [lookupS_syncOne_ne l n m hm]

theorem lookupS_syncOne_self_isSome (l : Registry) (n : String) :
    (lookupS (syncOne l n) n).isSome = true := by
  unfold syncOne
  cases hl : lookupS l n with
  | none => simp [lookupS_setS_self]
  | some r =>
    by_cases hr : r.recording
    · by_cases hc : procCheck r
      · simp [hr, hc, hl]
      · simp [hr, hc, lookupS_setS_self]
    · simp [hr, hl]

theorem syncOne_eq_some (l : Registry) (n : String) (r0 : StreamerRec)
    (h : lookupS l n = some r0) :
    syncOne l n =
      if r0.recording then
        if procCheck r0 then l
        else setS l n { r0 with recording := false, proc := none }
      else l := by
  unfold syncOne
  rw [h]

theorem syncOne_eq_none (l : Registry) (n : String)
    (h : lookupS l n = none) : syncOne l n = setS l n defaultRec := by
  unfold syncOne
  rw [h]

/-- After the body of the sync loop ran for `n`, `n`'s record (if marked
recording) passes the aliveness test. -/
theorem syncOne_self_checked (l : Registry) (n : String) (r : StreamerRec)
    (h : lookupS (syncOne l n) n = some r) (hr : r.recording = true) :
    procCheck r = true := by
  cases hl : lookupS l n with
  | none =>
    rw [syncOne_eq_none l n hl, lookupS_setS_self] at h
    cases h
    simp [defaultRec] at hr
  | some r0 =>
    rw [syncOne_eq_some l n r0 hl] at h
    by_cases hr0 : r0.recording = true
    · by_cases hc : procCheck r0 = true
      · rw [if_pos hr0, if_pos hc, hl] at h
        cases h
        exact hc
      · rw [if_pos hr0, if_neg hc, lookupS_setS_self] at h
        cases h
        simp at hr
    · rw [if_neg hr0, hl] at h
      cases h
      exact absurd hr hr0

/-- The checked-ness of `n`'s record is preserved by running the sync body
for any name (including `n` again). -/
theorem syncOne_preserves_checked (l : Registry) (n m : String)
    (hP : ∀ r, lookupS l n = some r → r.recording = true → procCheck r = true) :
    ∀ r, lookupS (syncOne l m) n = some r → r.recording = true → procCheck r = true := by
  intro r h hr
  by_cases hnm : n = m
  · subst hnm
    exact syncOne_self_checked l n r h hr
  · rw [lookupS_syncOne_ne l m n hnm] at h
    exact hP r h hr

theorem syncGo_preserves_checked (cfg : List String) (l : Registry) (n : String)
    (hP : ∀ r, lookupS l n = some r → r.recording = true → procCheck r = true) :
    ∀ r, lookupS (syncGo cfg l) n = some r → r.recording = true → procCheck r = true := by
  induction cfg generalizing l with
  | nil => exact hP
  | cons m t ih => exact ih (syncOne l m) (syncOne_preserves_checked l n m hP)

theorem syncGo_preserves_isSome (cfg : List String) (l : Registry) (n : String)
    (h : (lookupS l n).isSome = true) : (lookupS (syncGo cfg l) n).isSome = true := by
  induction cfg generalizing l with
  | nil => exact h
  | cons m t ih => exact ih (syncOne l m) (lookupS_syncOne_isSome l m n h)

/-- Every configured name has a record after the sync step. -/
theorem syncGo_defined (cfg : List String) (l : Registry) (n : String) (h : n ∈ cfg) :
    (lookupS (syncGo cfg l) n).isSome = true := by
  induction cfg generalizing l with
  | nil => simp at h
  | cons m t ih =>
    rcases List.mem_cons.mp h with h | h
    · subst h
      exact syncGo_preserves_isSome t (syncOne l n) n (lookupS_syncOne_self_isSome l n)
    · exact ih (syncOne l m) h

/-- Every configured name's record, if marked recording after the sync step,
passes the aliveness test. -/
theorem syncGo_checked (cfg : List String) (l : Registry) (n : String) (h : n ∈ cfg) :
    ∀ r, lookupS (syncGo cfg l) n = some r → r.recording = true → procCheck r = true := by
  induction cfg generalizing l with
  | nil => simp at h
  | cons m t ih =>
    rcases List.mem_cons.mp h with h | h
    · subst h
      exact syncGo_preserves_checked t (syncOne l n) n
        (fun r hr => syncOne_self_checked l n r hr)
    · exact ih (syncOne l m) h

/-- Names outside the configured list are untouched by the sync step. -/
theorem lookupS_syncGo_not_mem (cfg : List String) (l : Registry) (n : String)
    (h : n ∉ cfg) : lookupS (syncGo cfg l) n = lookupS l n := by
  induction cfg generalizing l with
  | nil => rfl
  | cons m t ih =>
    have hm : n ≠ m := fun hh => h (hh ▸ List.mem_cons_self m t)
    rw [syncGo, ih (syncOne l m) (fun hh => h (List.mem_cons_of_mem m hh)),
      lookupS_syncOne_ne l m n hm]

/-- An already-consistent record is left alone by the sync body. -/
theorem syncOne_id (l : Registry) (n : String) (r : StreamerRec)
    (h : lookupS l n = some r) (hc : r.recording = true → procCheck r = true) :
    syncOne l n = l := by
  unfold syncOne
  rw [h]
  by_cases hr : r.recording
  · simp [hr, hc hr]
  · simp [hr]

/-- A registry in which every configured name is present and consistent is a
fixed point of the whole sync step. -/
theorem syncGo_id (cfg : List String) (l : Registry)
    (h : ∀ n ∈ cfg, ∃ r, lookupS l n = some r ∧ (r.recording = true → procCheck r = true)) :
    syncGo cfg l = l := by
  induction cfg with
  | nil => rfl
  | cons m t ih =>
    obtain ⟨r, hr, hc⟩ := h m (List.mem_cons_self m t)
    rw [syncGo, syncOne_id l m r hr hc]
    exact ih (fun n hn => h n (List.mem_cons_of_mem m hn))

theorem nodup_keysS_syncOne (l : Registry) (n : String)
    (h : (keysS l).Nodup) : (keysS (syncOne l n)).Nodup := by
  unfold syncOne
  cases lookupS l n with
  | none => exact nodup_keysS_setS l n defaultRec h
  | some r =>
    by_cases hr : r.recording
    · by_cases hc : procCheck r
      · simpa [hr, hc]
      · simpa [hr, hc] using nodup_keysS_setS l n _ h
    · simpa [hr]

theorem nodup_keysS_syncGo (cfg : List String) (l : Registry)
    (h : (keysS l).Nodup) : (keysS (syncGo cfg l)).Nodup := by
  induction cfg generalizing l with
  | nil => exact h
  | cons m t ih => exact ih (syncOne l m) (nodup_keysS_syncOne l m h)

/-! ## Facts about the probe-and-converge step -/

theorem updateStreamer_eq (pr : ProbeResult) (n : String) (s : BotState) (r : StreamerRec)
    (h : lookupS s.streamers n = some r) :
    Bot.updateStreamer pr n s =
      (.ok (updSpawn pr r), { s with streamers := setS s.streamers n (updRec pr r) }) := by
  unfold Bot.updateStreamer
  rw [h]
  by_cases hp : r.paused = true
  · simp [updRec, updSpawn, hp]
  · by_cases hg : (isPublic pr && !r.recording) = true
    · simp [updRec, updSpawn, hp, hg]
    · simp [updRec, updSpawn, hp, hg]

theorem updateStreamer_eq_none (pr : ProbeResult) (n : String) (s : BotState)
    (h : lookupS s.streamers n = none) :
    Bot.updateStreamer pr n s = (.error .typeError, s) := by
  unfold Bot.updateStreamer
  rw [h]

theorem updRec_paused (pr : ProbeResult) (r : StreamerRec) :
    (updRec pr r).paused = r.paused := by
  unfold updRec
  by_cases hp : r.paused = true <;>
    by_cases hg : (isPublic pr && !r.recording) = true <;> simp [hp, hg]

theorem updRec_stable (pr : ProbeResult) (r : StreamerRec) :
    stableRec pr (updRec pr r) := by
  unfold updRec stableRec
  by_cases hp : r.paused = true
  · rw [if_pos hp]
    intro _
    exact Or.inl hp
  · rw [if_neg hp]
    by_cases hg : (isPublic pr && !r.recording) = true
    · rw [if_pos hg]
      intro hrec
      simp at hrec
    · rw [if_neg hg]
      intro hrec
      right
      rw [hrec] at hg
      simpa using hg

theorem updRec_checked (pr : ProbeResult) (r : StreamerRec)
    (h : recChecked r) : recChecked (updRec pr r) := by
  unfold recChecked at h ⊢
  unfold updRec
  by_cases hp : r.paused = true
  · rw [if_pos hp]
    intro hrec
    exact h hrec
  · rw [if_neg hp]
    by_cases hg : (isPublic pr && !r.recording) = true
    · rw [if_pos hg]
      intro _
      rfl
    · rw [if_neg hg]
      intro hrec
      exact h hrec

theorem updRec_noSpawn (pr : ProbeResult) (r : StreamerRec)
    (h : noSpawnRec pr r) : noSpawnRec pr (updRec pr r) := by
  unfold noSpawnRec at h ⊢
  unfold updRec
  by_cases hp : r.paused = true
  · rw [if_pos hp]
    exact Or.inr (Or.inl hp)
  · rw [if_neg hp]
    by_cases hg : (isPublic pr && !r.recording) = true
    · rw [if_pos hg]
      exact Or.inl rfl
    · rw [if_neg hg]
      exact h

theorem updSpawn_eq_false (pr : ProbeResult) (r : StreamerRec)
    (h : noSpawnRec pr r) : updSpawn pr r = false := by
  unfold noSpawnRec at h
  unfold updSpawn
  rcases h with h | h | h <;> simp [h]

theorem updRec_inv (pr : ProbeResult) (r : StreamerRec)
    (h : r.recording = true → r.proc.isSome = true) :
    (updRec pr r).recording = true → (updRec pr r).proc.isSome = true := by
  unfold updRec
  by_cases hp : r.paused = true
  · simpa [hp] using h
  · by_cases hg : (isPublic pr && !r.recording) = true
    · simp [hp, hg]
    · simpa [hp, hg] using h

/-- Master description of the `Promise.all` fold: when every visited name has
a record, no update throws, the non-registry fields and the key set are
unchanged, unvisited names keep their records, records never disappear, every
visited name ends sticky-stable, and aliveness-checkedness of any name's
record is preserved. -/
theorem updateAllGo_spec (p : String → ProbeResult) (K : List String) (s : BotState)
    (h : ∀ k ∈ K, (lookupS s.streamers k).isSome = true) :
    ∃ m s', Bot.updateAllGo p K s = (.ok m, s') ∧
      s'.config = s.config ∧ s'.running = s.running ∧
      s'.timeoutPending = s.timeoutPending ∧
      keysS s'.streamers = keysS s.streamers ∧
      (∀ q, q ∉ K → lookupS s'.streamers q = lookupS s.streamers q) ∧
      (∀ q, (lookupS s.streamers q).isSome = true → (lookupS s'.streamers q).isSome = true) ∧
      (∀ n ∈ K, ∀ r', lookupS s'.streamers n = some r' → stableRec (p n) r') ∧
      (∀ n, (∀ r, lookupS s.streamers n = some r → recChecked r) →
        (∀ r', lookupS s'.streamers n = some r' → recChecked r')) := by
  induction K generalizing s with
  | nil =>
    refine ⟨0, s, rfl, rfl, rfl, rfl, rfl, fun q _ => rfl, fun q hq => hq, ?_, ?_⟩
    · intro n hn
      simp at hn
    · intro n hn
      exact hn
  | cons k t ih =>
    have hk := h k (List.mem_cons_self k t)
    obtain ⟨rk, hrk⟩ := Option.isSome_iff_exists.mp hk
    have hstep := updateStreamer_eq (p k) k s rk hrk
    set s1 : BotState := { s with streamers := setS s.streamers k (updRec (p k) rk) } with hs1
    have hlook1 : ∀ q, q ≠ k → lookupS s1.streamers q = lookupS s.streamers q := by
      intro q hq
      exact lookupS_setS_ne s.streamers k q _ hq
    have hlook1k : lookupS s1.streamers k = some (updRec (p k) rk) :=
      lookupS_setS_self s.streamers k _
    have hsome1 : ∀ q, (lookupS s.streamers q).isSome = true →
        (lookupS s1.streamers q).isSome = true := by
      intro q hq
      by_cases hqk : q = k
      · subst hqk
        simp [hlook1k]
      · rw [hlook1 q hqk]
        exact hq
    have ht : ∀ k' ∈ t, (lookupS s1.streamers k').isSome = true :=
      fun k' hk' => hsome1 k' (h k' (List.mem_cons_of_mem k hk'))
    obtain ⟨m, s2, hgo, hcfg, hrun, htp, hkeys, hout, hsome2, hstab, hchk⟩ := ih s1 ht
    refine ⟨(if updSpawn (p k) rk then 1 else 0) + m, s2, ?_, ?_, ?_, ?_, ?_, ?_, ?_, ?_, ?_⟩
    · show Bot.updateAllGo p (k :: t) s = _
      unfold Bot.updateAllGo
      rw [hstep]
      dsimp only
      rw [hgo]
    · exact hcfg
    · exact hrun
    · exact htp
    · rw [hkeys, hs1]
      exact keysS_setS_of_mem s.streamers k _ hk
    · intro q hq
      have hqk : q ≠ k := fun hh => hq (hh ▸ List.mem_cons_self k t)
      have hqt : q ∉ t := fun hh => hq (List.mem_cons_of_mem k hh)
      rw [hout q hqt, hlook1 q hqk]
    · intro q hq
      exact hsome2 q (hsome1 q hq)
    · intro n hn r' hr'
      by_cases hnt : n ∈ t
      · exact hstab n hnt r' hr'
      · have hnk : n = k := by
          rcases List.mem_cons.mp hn with hh | hh
          · exact hh
          · exact absurd hh hnt
        subst hnk
        rw [hout n hnt, hlook1k] at hr'
        cases hr'
        exact updRec_stable (p n) rk
    · intro n hcn
      have hcn1 : ∀ r, lookupS s1.streamers n = some r → recChecked r := by
        intro r hr
        by_cases hnk : n = k
        · subst hnk
          rw [hlook1k] at hr
          cases hr
          exact updRec_checked (p n) rk (hcn rk hrk)
        · rw [hlook1 n hnk] at hr
          exact hcn r hr
      exact hchk n hcn1

/-- When every visited record already refuses a spawn (recording, paused, or
not live), the fold spawns zero processes. -/
theorem updateAllGo_zero (p : String → ProbeResult) (K : List String) (s : BotState)
    (h : ∀ k ∈ K, ∃ r, lookupS s.streamers k = some r ∧ noSpawnRec (p k) r) :
    ∃ s', Bot.updateAllGo p K s = (.ok 0, s') := by
  induction K generalizing s with
  | nil => exact ⟨s, rfl⟩
  | cons k t ih =>
    obtain ⟨rk, hrk, hns⟩ := h k (List.mem_cons_self k t)
    have hstep := updateStreamer_eq (p k) k s rk hrk
    set s1 : BotState := { s with streamers := setS s.streamers k (updRec (p k) rk) } with hs1
    have ht : ∀ k' ∈ t, ∃ r, lookupS s1.streamers k' = some r ∧ noSpawnRec (p k') r := by
      intro k' hk'
      obtain ⟨r', hr', hns'⟩ := h k' (List.mem_cons_of_mem k hk')
      by_cases hkk : k' = k
      · rw [hkk] at hr' hns' ⊢
        rw [hrk] at hr'
        injection hr' with hh
        subst hh
        exact ⟨updRec (p k) rk, lookupS_setS_self s.streamers k _, updRec_noSpawn (p k) rk hns'⟩
      · exact ⟨r', by rwa [hs1, lookupS_setS_ne s.streamers k k' _ hkk], hns'⟩
    obtain ⟨s2, hgo⟩ := ih s1 ht
    refine ⟨s2, ?_⟩
    show Bot.updateAllGo p (k :: t) s = _
    unfold Bot.updateAllGo
    rw [hstep]
    dsimp only
    rw [hgo, updSpawn_eq_false (p k) rk hns]
    rfl

/-! ## Facts about a whole tick -/

theorem tickBody_eq (c : Config) (p : String → ProbeResult) (s : BotState) :
    Bot.tickBody c p s =
      Bot.updateAllGo p (keysS (pruneGo c.streamers (syncGo c.streamers s.streamers)))
        { config := c,
          streamers := pruneGo c.streamers (syncGo c.streamers s.streamers),
          running := true, timeoutPending := false } := rfl

/-- A tick never throws: every key visited by the probe-and-converge fold is
a key of the post-prune registry, so each `updateStreamer` finds its
record. -/
theorem tick_ok (c : Config) (p : String → ProbeResult) (s : BotState) :
    ∃ m s1, Bot.tick c p s = (.ok m, s1) := by
  set l2 := pruneGo c.streamers (syncGo c.streamers s.streamers) with hl2
  set st : BotState :=
    { config := c, streamers := l2, running := true, timeoutPending := false } with hst
  have hK : ∀ k ∈ keysS l2, (lookupS st.streamers k).isSome = true :=
    fun k hk => lookupS_isSome_of_mem_keysS l2 k hk
  obtain ⟨m, s', hgo, _⟩ := updateAllGo_spec p (keysS l2) st hK
  refine ⟨m, Bot.tickResched s', ?_⟩
  unfold Bot.tick
  rw [tickBody_eq, ← hl2, ← hst, hgo]

/-- What a completed tick guarantees about the state it leaves behind. -/
theorem tick_post (c : Config) (p : String → ProbeResult) (s : BotState)
    (m : Nat) (s1 : BotState) (hnd : (keysS s.streamers).Nodup)
    (h : Bot.tick c p s = (.ok m, s1)) :
    TickStable c p s1 ∧ (keysS s1.streamers).Nodup ∧ s1.config = c := by
  set l1 := syncGo c.streamers s.streamers with hl1
  set l2 := pruneGo c.streamers l1 with hl2
  set st : BotState :=
    { config := c, streamers := l2, running := true, timeoutPending := false } with hst
  have hnd1 : (keysS l1).Nodup := nodup_keysS_syncGo c.streamers s.streamers hnd
  have hnd2 : (keysS l2).Nodup := nodup_keysS_pruneGo c.streamers l1 hnd1
  have hK : ∀ k ∈ keysS l2, (lookupS st.streamers k).isSome = true :=
    fun k hk => lookupS_isSome_of_mem_keysS l2 k hk
  obtain ⟨m0, s', hgo, hcfg, hrun, htp, hkeys, hout, hsome, hstab, hchk⟩ :=
    updateAllGo_spec p (keysS l2) st hK
  have htick : Bot.tick c p s = (.ok m0, Bot.tickResched s') := by
    unfold Bot.tick
    rw [tickBody_eq, ← hl1, ← hl2, ← hst, hgo]
  rw [h] at htick
  injection htick with hfst hsnd
  have hs1 : s1.streamers = s'.streamers := by rw [hsnd]; rfl
  have hs1c : s1.config = s'.config := by rw [hsnd]; rfl
  refine ⟨⟨?_, ?_, ?_⟩, ?_, ?_⟩
  · intro n hn
    rw [hs1]
    apply hsome
    have h1 : (lookupS l1 n).isSome = true := syncGo_defined c.streamers s.streamers n hn
    obtain ⟨r, hr⟩ := Option.isSome_iff_exists.mp h1
    have h2 : lookupS l2 n = some r :=
      lookupS_pruneGo_of_kept c.streamers l1 n r hr
        (by rw [Bool.or_eq_true]; exact Or.inl ((memS_iff_mem c.streamers n).mpr hn))
    show (lookupS l2 n).isSome = true
    simp [h2]
  · intro n hn r hr hrec
    have hpre : ∀ r0, lookupS st.streamers n = some r0 → recChecked r0 := by
      intro r0 hr0
      have h1 : lookupS l1 n = some r0 :=
        lookupS_pruneGo_of_lookup c.streamers l1 n r0 hnd1 hr0
      exact fun hrec0 => syncGo_checked c.streamers s.streamers n hn r0 h1 hrec0
    rw [hs1] at hr
    exact hchk n hpre r hr hrec
  · intro n r hr
    rw [hs1] at hr
    have hn : n ∈ keysS s'.streamers := mem_keysS_of_lookupS s'.streamers n r hr
    rw [hkeys] at hn
    exact hstab n hn r hr
  · have : keysS s1.streamers = keysS l2 := by rw [hs1, hkeys]
    rw [this]
    exact hnd2
  · rw [hs1c, hcfg]

/-- On a tick-stable state a fresh tick with the same configuration and the
same probe behaviour spawns nothing. -/
theorem tick_zero_of_stable (c : Config) (p : String → ProbeResult) (s : BotState)
    (hts : TickStable c p s) (hnd : (keysS s.streamers).Nodup) :
    ∃ s2, Bot.tick c p s = (.ok 0, s2) := by
  obtain ⟨hA, hB, hC⟩ := hts
  have hsync : syncGo c.streamers s.streamers = s.streamers := by
    apply syncGo_id
    intro n hn
    obtain ⟨r, hr⟩ := Option.isSome_iff_exists.mp (hA n hn)
    exact ⟨r, hr, fun hrec => hB n hn r hr hrec⟩
  set l2 := pruneGo c.streamers s.streamers with hl2
  set st : BotState :=
    { config := c, streamers := l2, running := true, timeoutPending := false } with hst
  have hzero : ∀ k ∈ keysS l2, ∃ r, lookupS st.streamers k = some r ∧ noSpawnRec (p k) r := by
    intro k hk
    obtain ⟨r, hr⟩ := Option.isSome_iff_exists.mp (lookupS_isSome_of_mem_keysS l2 k hk)
    have hrs : lookupS s.streamers k = some r :=
      lookupS_pruneGo_of_lookup c.streamers s.streamers k r hnd hr
    refine ⟨r, hr, ?_⟩
    cases hrec : r.recording with
    | true => exact Or.inl hrec
    | false =>
      rcases hC k r hrs hrec with hp | hp
      · exact Or.inr (Or.inl hp)
      · exact Or.inr (Or.inr hp)
  obtain ⟨s2, hgo⟩ := updateAllGo_zero p (keysS l2) st hzero
  refine ⟨Bot.tickResched s2, ?_⟩
  unfold Bot.tick
  rw [tickBody_eq, hsync, ← hl2, ← hst, hgo]

/-! ## Facts used for the registry invariant and the drain policy -/

theorem mem_setS (l : Registry) (n : String) (r : StreamerRec) (kv : String × StreamerRec)
    (h : kv ∈ setS l n r) : kv = (n, r) ∨ kv ∈ l := by
  induction l with
  | nil =>
    simp only [setS, List.mem_singleton] at h
    exact Or.inl h
  | cons kv0 t ih =>
    obtain ⟨k, v⟩ := kv0
    have hset : setS ((k, v) :: t) n r =
        if k = n then (k, r) :: t else (k, v) :: setS t n r := rfl
    by_cases hk : k = n
    · rw [hset, if_pos hk] at h
      rcases List.mem_cons.mp h with h | h
      · rw [h, hk]
        exact Or.inl rfl
      · exact Or.inr (List.mem_cons_of_mem _ h)
    · rw [hset, if_neg hk] at h
      rcases List.mem_cons.mp h with h | h
      · exact Or.inr (h ▸ List.mem_cons_self _ _)
      · rcases ih h with h2 | h2
        · exact Or.inl h2
        · exact Or.inr (List.mem_cons_of_mem _ h2)

theorem mem_eraseS (l : Registry) (n : String) (kv : String × StreamerRec)
    (h : kv ∈ eraseS l n) : kv ∈ l := by
  induction l with
  | nil => simpa [eraseS] using h
  | cons kv0 t ih =>
    obtain ⟨k, v⟩ := kv0
    by_cases hk : k = n
    · simp only [eraseS, hk, if_pos rfl] at h
      exact List.mem_cons_of_mem _ h
    · simp only [eraseS, hk, if_false, List.mem_cons] at h
      rcases h with h | h
      · exact h ▸ List.mem_cons_self _ _
      · exact List.mem_cons_of_mem _ (ih h)

theorem InvRegistry_setS (l : Registry) (n : String) (r : StreamerRec)
    (hInv : InvRegistry l) (hr : r.recording = true → r.proc.isSome = true) :
    InvRegistry (setS l n r) := by
  intro kv hkv
  rcases mem_setS l n r kv hkv with h | h
  · rw [h]
    exact hr
  · exact hInv kv h

theorem InvRegistry_eraseS (l : Registry) (n : String)
    (hInv : InvRegistry l) : InvRegistry (eraseS l n) :=
  fun kv hkv => hInv kv (mem_eraseS l n kv hkv)

theorem InvRegistry_of_lookupS (l : Registry) (n : String) (r : StreamerRec)
    (hInv : InvRegistry l) (h : lookupS l n = some r) :
    r.recording = true → r.proc.isSome = true :=
  hInv (n, r) (lookupS_mem l n r h)

theorem InvRegistry_syncOne (l : Registry) (n : String)
    (hInv : InvRegistry l) : InvRegistry (syncOne l n) := by
  cases hl : lookupS l n with
  | none =>
    rw [syncOne_eq_none l n hl]
    exact InvRegistry_setS l n defaultRec hInv (by simp [defaultRec])
  | some r =>
    rw [syncOne_eq_some l n r hl]
    by_cases hr : r.recording = true
    · by_cases hc : procCheck r = true
      · rw [if_pos hr, if_pos hc]
        exact hInv
      · rw [if_pos hr, if_neg hc]
        exact InvRegistry_setS l n _ hInv (by intro hh; simp at hh)
    · rw [if_neg hr]
      exact hInv

theorem InvRegistry_syncGo (cfg : List String) (l : Registry)
    (hInv : InvRegistry l) : InvRegistry (syncGo cfg l) := by
  induction cfg generalizing l with
  | nil => exact hInv
  | cons m t ih => exact ih (syncOne l m) (InvRegistry_syncOne l m hInv)

/-- Removing all occurrences of a string leaves a list in which the string no
longer tests as a member. -/
theorem memS_filter_self (l : List String) (n : String) :
    memS (l.filter (fun x => x != n)) n = false := by
  induction l with
  | nil => rfl
  | cons x t ih =>
    by_cases hx : x = n
    · simpa [List.filter, hx]
    · have hxb : (x != n) = true := by simpa using hx
      simp only [List.filter, hxb]
      simpa [memS, hx]

/-- A non-recording record survives the whole sync step unchanged. -/
theorem syncGo_keeps_nonrec (cfg : List String) (l : Registry) (n : String)
    (r0 : StreamerRec) (h : lookupS l n = some r0) (hr : r0.recording = false) :
    lookupS (syncGo cfg l) n = some r0 := by
  induction cfg generalizing l with
  | nil => exact h
  | cons m t ih =>
    apply ih
    by_cases hm : m = n
    · subst hm
      rw [syncOne_eq_some l m r0 h, if_neg (by simp [hr])]
      exact h
    · rw [lookupS_syncOne_ne l m n (fun hh => hm hh.symm)]
      exact h

/-- A recording record that passes the aliveness test survives the whole
sync step unchanged. -/
theorem syncGo_keeps_checked (cfg : List String) (l : Registry) (n : String)
    (r0 : StreamerRec) (h : lookupS l n = some r0) (hr : r0.recording = true)
    (hc : procCheck r0 = true) : lookupS (syncGo cfg l) n = some r0 := by
  induction cfg generalizing l with
  | nil => exact h
  | cons m t ih =>
    apply ih
    by_cases hm : m = n
    · subst hm
      rw [syncOne_eq_some l m r0 h, if_pos hr, if_pos hc]
      exact h
    · rw [lookupS_syncOne_ne l m n (fun hh => hm hh.symm)]
      exact h

/-- A configured recording record failing the aliveness test is reset by the
sync step. -/
theorem syncGo_resets (cfg : List String) (l : Registry) (n : String)
    (r : StreamerRec) (h : lookupS l n = some r) (hr : r.recording = true)
    (hc : procCheck r = false) (hn : n ∈ cfg) :
    lookupS (syncGo cfg l) n = some { r with recording := false, proc := none } := by
  induction cfg generalizing l with
  | nil => simp at hn
  | cons m t ih =>
    by_cases hm : m = n
    · subst hm
      have hreset : lookupS (syncOne l m) m = some { r with recording := false, proc := none } := by
        rw [syncOne_eq_some l m r h, if_pos hr, if_neg (by simp [hc]), lookupS_setS_self]
      exact syncGo_keeps_nonrec t (syncOne l m) m _ hreset rfl
    · rcases List.mem_cons.mp hn with hh | hh
      · exact absurd hh.symm hm
      · apply ih (syncOne l m) _ hh
        rw [lookupS_syncOne_ne l m n (fun h2 => hm h2.symm)]
        exact h

/-! ## The claims -/

/-- C1 (counterexample): on a configured entity `"a"` whose record is
recording with a live process, `pauseStreamer "a"` succeeds, yet immediately
after the call the record still has `recording = true` — the claim that
pausing a recording entity immediately transitions it to
`recording == false` is false on this input. -/
theorem c1_counterexample :
    (Bot.pauseStreamer "a"
        { config := sampleConfig ["a"], streamers := [("a", recRec)],
          running := true, timeoutPending := true }).1 = .ok true ∧
    (lookupS (Bot.pauseStreamer "a"
        { config := sampleConfig ["a"], streamers := [("a", recRec)],
          running := true, timeoutPending := true }).2.streamers "a").map
      StreamerRec.recording = some true :=
  ⟨rfl, rfl⟩

/-- C1 (amended): `pauseStreamer` on a registered entity succeeds; if the
record holds a process handle the handle is sent SIGINT and `paused` is set,
with `recording` and all other fields unchanged (the transition to
non-recording happens only later, through the exit observer, whose effect on
a still-configured entity is stated in the last conjunct); if the record
holds no handle, only `paused` is set. -/
theorem c1_pauseStreamer_behavior (name : String) (s : BotState) (r : StreamerRec)
    (hn : ¬(name = "")) (hlk : lookupS s.streamers name = some r) :
    (∀ p0, r.proc = some p0 →
      Bot.pauseStreamer name s =
        (.ok true, { s with streamers := setS s.streamers name (
          { r with proc := some { p0 with killed := true }, paused := true }) })) ∧
    (r.proc = none →
      Bot.pauseStreamer name s =
        (.ok true, { s with streamers := setS s.streamers name { r with paused := true } })) ∧
    (∀ s' r', memS s'.config.streamers name = true →
      lookupS s'.streamers name = some r' →
      Bot.onExit name s' =
        (.ok (), { s' with streamers := setS s'.streamers name (
          { r' with proc := none, recording := false }) })) := by
  have hkeys : memS (keysS s.streamers) name = true :=
    (memS_iff_mem _ _).mpr (mem_keysS_of_lookupS _ _ _ hlk)
  refine ⟨?_, ?_, ?_⟩
  · intro p0 hp0
    unfold Bot.pauseStreamer
    rw [if_neg hn, hkeys, hlk]
    simp only [Bool.not_true, Bool.and_false, Bool.false_eq_true, if_false]
    rw [hp0]
  · intro hp0
    unfold Bot.pauseStreamer
    rw [if_neg hn, hkeys, hlk]
    simp only [Bool.not_true, Bool.and_false, Bool.false_eq_true, if_false]
    rw [hp0]
    dsimp only
    rw [hp0]
  · intro s' r' hmem hlk'
    unfold Bot.onExit
    rw [hmem, hlk']
    rfl

/-- C1 (witness): evaluating the amended description on a concrete recording
entity. -/
theorem c1_witness :
    Bot.pauseStreamer "a" ⟨sampleConfig ["a"], [("a", recRec)], true, true⟩ =
      (.ok true, ⟨sampleConfig ["a"],
        setS [("a", recRec)] "a" (
          { recRec with proc := some { liveProc with killed := true }, paused := true }),
        true, true⟩) :=
  (c1_pauseStreamer_behavior "a" ⟨sampleConfig ["a"], [("a", recRec)], true, true⟩ recRec
      (by decide) rfl).1 liveProc rfl

/-- C4: with a non-empty name, adding an already-configured name fails with
the duplicate error ("Streamer already in streamers list") and returns the
whole state — configuration and registry — unchanged; removing a name not in
the configured list fails with the not-found error ("Streamer is not in
streamers list") and likewise leaves the state unchanged. -/
theorem c4_add_remove_validation (name : String) (s : BotState) (hn : ¬(name = "")) :
    (memS s.config.streamers name = true →
      Bot.addStreamer name s = (.error (.error "Streamer already in streamers list"), s)) ∧
    (memS s.config.streamers name = false →
      Bot.removeStreamer name s = (.error (.error "Streamer is not in streamers list"), s)) := by
  constructor
  · intro hm
    unfold Bot.addStreamer
    rw [if_neg hn, if_pos hm]
  · intro hm
    unfold Bot.removeStreamer
    rw [if_neg hn, hm]
    rfl

/-- C4 (witness): duplicate add of `"a"` and removal of the absent `"b"`
both fail and leave the concrete state untouched. -/
theorem c4_witness :
    Bot.addStreamer "a" ⟨sampleConfig ["a"], [], false, false⟩ =
      (.error (.error "Streamer already in streamers list"),
        ⟨sampleConfig ["a"], [], false, false⟩) ∧
    Bot.removeStreamer "b" ⟨sampleConfig ["a"], [], false, false⟩ =
      (.error (.error "Streamer is not in streamers list"),
        ⟨sampleConfig ["a"], [], false, false⟩) :=
  ⟨(c4_add_remove_validation "a" ⟨sampleConfig ["a"], [], false, false⟩ (by decide)).1
      (by decide),
   (c4_add_remove_validation "b" ⟨sampleConfig ["a"], [], false, false⟩ (by decide)).2
      (by decide)⟩

/-- C10: a name in the configured list but not in the registry passes the
membership validation of `pauseStreamer` / `resumeStreamer` and then
dereferences the missing record: both calls raise `TypeError` — which is not
the validation error — and return the state unchanged, so no flag is set. -/
theorem c10_missing_record_typeError (name : String) (s : BotState)
    (hn : ¬(name = "")) (hcfg : memS s.config.streamers name = true)
    (hlk : lookupS s.streamers name = none) :
    Bot.pauseStreamer name s = (.error .typeError, s) ∧
    Bot.resumeStreamer name s = (.error .typeError, s) ∧
    (∀ msg, (JsError.typeError : JsError) ≠ .error msg) := by
  refine ⟨?_, ?_, fun msg h => JsError.noConfusion h⟩
  · unfold Bot.pauseStreamer
    rw [if_neg hn, hcfg, hlk]
    rfl
  · unfold Bot.resumeStreamer
    rw [if_neg hn, hcfg, hlk]
    rfl

/-- C10 (witness): `"b"` is configured but not yet in the registry (as after
`addStreamer "b"` before the next tick); both calls raise `TypeError`. -/
theorem c10_witness :
    Bot.pauseStreamer "b" ⟨sampleConfig ["b"], [], true, true⟩ =
      (.error .typeError, ⟨sampleConfig ["b"], [], true, true⟩) ∧
    Bot.resumeStreamer "b" ⟨sampleConfig ["b"], [], true, true⟩ =
      (.error .typeError, ⟨sampleConfig ["b"], [], true, true⟩) :=
  ⟨(c10_missing_record_typeError "b" ⟨sampleConfig ["b"], [], true, true⟩
      (by decide) (by decide) rfl).1,
   (c10_missing_record_typeError "b" ⟨sampleConfig ["b"], [], true, true⟩
      (by decide) (by decide) rfl).2.1⟩

/-- C7 (counterexample): a configured recording entity whose process has
already exited with exit code 0 is NOT reset by the sync step — the record
keeps `recording = true` and the dead handle, because line 230's
`proc && !proc.exitCode` treats exit code 0 as alive.  This refutes the
claim's "for any exit code". -/
theorem c7_counterexample :
    lookupS (syncGo ["a"] [("a", zombieRec)]) "a" = some zombieRec ∧
    zombieRec.recording = true ∧
    zombieRec.proc = some { exitCode := some 0, killed := false } :=
  ⟨rfl, rfl, rfl⟩

/-- C7 (amended): during the sync step a configured recording record is
reset (`recording := false`, `proc := null`) iff it fails the aliveness test
of line 230, and that test passes exactly when a handle is present whose
`exitCode` is `null` or `0`; a record passing the test — including one whose
process exited with code 0 — survives the whole sync step unchanged. -/
theorem c7_sync_selfheal (cfg : List String) (l : Registry) (n : String)
    (r : StreamerRec) (hlk : lookupS l n = some r) (hr : r.recording = true) :
    (procCheck r = false → n ∈ cfg →
      lookupS (syncGo cfg l) n = some { r with recording := false, proc := none }) ∧
    (procCheck r = true → lookupS (syncGo cfg l) n = some r) ∧
    (procCheck r = true ↔
      ∃ p0, r.proc = some p0 ∧ (p0.exitCode = none ∨ p0.exitCode = some 0)) := by
  refine ⟨?_, ?_, ?_⟩
  · intro hc hn
    exact syncGo_resets cfg l n r hlk hr hc hn
  · intro hc
    exact syncGo_keeps_checked cfg l n r hlk hr hc
  · unfold procCheck
    cases hp : r.proc with
    | none => simp
    | some p0 =>
      dsimp only
      cases he : p0.exitCode with
      | none => simp [he]
      | some c =>
        dsimp only
        constructor
        · intro hc
          refine ⟨p0, rfl, Or.inr ?_⟩
          rw [he]
          simp only [beq_iff_eq] at hc
          rw [hc]
        · rintro ⟨p1, hp1, hc1 | hc1⟩
          · injection hp1 with hp1
            rw [← hp1, he] at hc1
            exact Option.noConfusion hc1
          · injection hp1 with hp1
            rw [← hp1, he] at hc1
            injection hc1 with hc1
            simp [hc1]

/-- C7 (witness): the amended description evaluated on a dead (exit code 2)
record, which is reset, and on the exit-code-0 record, which is kept. -/
theorem c7_witness :
    lookupS (syncGo ["a"] [("a",
        { recording := true, paused := false,
          proc := some { exitCode := some 2, killed := false }, meta := none })]) "a" =
      some { recording := false, paused := false, proc := none, meta := none } ∧
    lookupS (syncGo ["a"] [("a", zombieRec)]) "a" = some zombieRec :=
  ⟨(c7_sync_selfheal ["a"] [("a",
      { recording := true, paused := false,
        proc := some { exitCode := some 2, killed := false }, meta := none })] "a"
      _ rfl rfl).1 rfl (by decide),
   (c7_sync_selfheal ["a"] [("a", zombieRec)] "a" zombieRec rfl rfl).2.1 rfl⟩

/-- C8: when the probe for an entity fails, `updateStreamer` does not throw:
it returns normally with no spawn, its only effect is setting that entity's
`meta` to the unknown value `false`, every other entity's record is
untouched, and a whole tick completes normally whatever each probe
returns. -/
theorem c8_probe_failure_isolated (n : String) (s : BotState) (r : StreamerRec)
    (hlk : lookupS s.streamers n = some r) :
    Bot.updateStreamer .failure n s =
      (.ok false, { s with streamers := setS s.streamers n { r with meta := none } }) ∧
    (∀ m, m ≠ n →
      lookupS (setS s.streamers n { r with meta := none }) m = lookupS s.streamers m) ∧
    (∀ c p, ∃ k s1, Bot.tick c p s = (.ok k, s1)) := by
  refine ⟨?_, ?_, fun c p => tick_ok c p s⟩
  · rw [updateStreamer_eq .failure n s r hlk]
    have h1 : updSpawn ProbeResult.failure r = false := by
      unfold updSpawn
      simp [isPublic]
    have h2 : updRec ProbeResult.failure r = { r with meta := none } := by
      unfold updRec
      by_cases hp : r.paused = true
      · rw [if_pos hp]
        rfl
      · rw [if_neg hp, if_neg (by simp [isPublic])]
        rfl
    rw [h1, h2]
  · intro m hm
    exact lookupS_setS_ne s.streamers n m _ hm

/-- C8 (witness): a failed probe for the idle entity `"b"`: no exception, no
spawn, `meta` unknown, the other entity `"a"` untouched, tick completes. -/
theorem c8_witness :
    Bot.updateStreamer .failure "b"
        ⟨sampleConfig ["a", "b"], [("a", recRec), ("b", idleRec)], true, false⟩ =
      (.ok false, ⟨sampleConfig ["a", "b"],
        setS [("a", recRec), ("b", idleRec)] "b" { idleRec with meta := none },
        true, false⟩) ∧
    lookupS (setS [("a", recRec), ("b", idleRec)] "b" { idleRec with meta := none }) "a" =
      lookupS [("a", recRec), ("b", idleRec)] "a" ∧
    (∃ k s1, Bot.tick (sampleConfig ["a", "b"]) (fun _ => .failure)
        ⟨sampleConfig ["a", "b"], [("a", recRec), ("b", idleRec)], true, false⟩ =
      (.ok k, s1)) := by
  have h := c8_probe_failure_isolated "b"
    ⟨sampleConfig ["a", "b"], [("a", recRec), ("b", idleRec)], true, false⟩ idleRec rfl
  exact ⟨h.1, h.2.1 "a" (by decide), h.2.2 (sampleConfig ["a", "b"]) (fun _ => .failure)⟩

/-- C3 (bug evaluation): when the loop is not running, `bot.pause()` throws
the "Bot not running" error; `apiResponse` catches it but its handler
evaluates `this.logger.info` — `this` being the global object in a
sloppy-mode plain call, with no `logger` on it — so a `TypeError` escapes to
the transport instead of the claimed failure result. -/
theorem c3_api_error_escapes :
    (Bot.pause ⟨sampleConfig [], [], false, false⟩).1 =
      .error (.error "Bot not running") ∧
    apiResponse (Bot.pause ⟨sampleConfig [], [], false, false⟩).1 =
      .error .typeError :=
  ⟨rfl, rfl⟩

/-- C2 (bug evaluation): a pause command landing while a tick is in flight
(after the awaited probes, before the reschedule) succeeds and clears the
flags, but the in-flight pass then executes line 261 unconditionally, so a
scheduled successor tick IS pending afterwards — contradicting the claim
that no pending tick remains. -/
theorem c2_pause_midtick_reschedules :
    (Bot.pause (Bot.tickBody (sampleConfig []) (fun _ => .failure)
        ⟨sampleConfig [], [], true, true⟩).2).1 = .ok true ∧
    (Bot.pause (Bot.tickBody (sampleConfig []) (fun _ => .failure)
        ⟨sampleConfig [], [], true, true⟩).2).2.running = false ∧
    (Bot.pause (Bot.tickBody (sampleConfig []) (fun _ => .failure)
        ⟨sampleConfig [], [], true, true⟩).2).2.timeoutPending = false ∧
    (Bot.tickResched (Bot.pause (Bot.tickBody (sampleConfig []) (fun _ => .failure)
        ⟨sampleConfig [], [], true, true⟩).2).2).timeoutPending = true :=
  ⟨rfl, rfl, rfl, rfl⟩

theorem onError_eq_onExit (n : String) (s : BotState) :
    Bot.onError n s = Bot.onExit n s := rfl

theorem onExit_eq_mem (n : String) (s : BotState) (r : StreamerRec)
    (hm : memS s.config.streamers n = true) (hl : lookupS s.streamers n = some r) :
    Bot.onExit n s = (.ok (), { s with streamers := setS s.streamers n (
      { r with proc := none, recording := false }) }) := by
  unfold Bot.onExit
  rw [hm, hl]
  rfl

theorem onExit_eq_mem_missing (n : String) (s : BotState)
    (hm : memS s.config.streamers n = true) (hl : lookupS s.streamers n = none) :
    Bot.onExit n s = (.error .typeError, s) := by
  unfold Bot.onExit
  rw [hm, hl]
  rfl

theorem onExit_eq_not_mem (n : String) (s : BotState)
    (hm : memS s.config.streamers n = false) :
    Bot.onExit n s = (.ok (), { s with streamers := eraseS s.streamers n }) := by
  unfold Bot.onExit
  rw [hm]
  rfl

/-- C5: removing a currently-recording configured entity only rewrites the
configured list: the registry — hence its process handle, which is never
signalled — is untouched and still holds the record with `recording = true`;
the next tick's sync step (which visits only configured names) and prune
step (which keeps recording records) leave the record in place; and only
when the process reports exit while the name is unconfigured does the exit
observer delete the record. -/
theorem c5_drain_policy (name : String) (s : BotState) (r : StreamerRec)
    (hn : ¬(name = "")) (hm : memS s.config.streamers name = true)
    (hlk : lookupS s.streamers name = some r) (hr : r.recording = true) :
    (Bot.removeStreamer name s =
      (.ok true, { s with config := { s.config with
        streamers := s.config.streamers.filter (fun x => x != name) } })) ∧
    memS (s.config.streamers.filter (fun x => x != name)) name = false ∧
    (∀ cfg, name ∉ cfg →
      lookupS (pruneGo cfg (syncGo cfg s.streamers)) name = some r) ∧
    (∀ s', memS s'.config.streamers name = false →
      (keysS s'.streamers).Nodup →
      Bot.onExit name s' = (.ok (), { s' with streamers := eraseS s'.streamers name }) ∧
      lookupS (eraseS s'.streamers name) name = none) := by
  refine ⟨?_, memS_filter_self s.config.streamers name, ?_, ?_⟩
  · unfold Bot.removeStreamer
    rw [if_neg hn, hm]
    rfl
  · intro cfg hcfg
    have h1 : lookupS (syncGo cfg s.streamers) name = some r := by
      rw [lookupS_syncGo_not_mem cfg s.streamers name hcfg]
      exact hlk
    exact lookupS_pruneGo_of_kept cfg _ name r h1 (by rw [hr, Bool.or_true])
  · intro s' hm' hnd'
    exact ⟨onExit_eq_not_mem name s' hm', lookupS_eraseS_self s'.streamers name hnd'⟩

/-- C5 (witness): `"a"` is recording and removed from the configuration; it
survives the removal and the next sync+prune, and is deleted exactly when
its exit is reported. -/
theorem c5_witness :
    Bot.removeStreamer "a" ⟨sampleConfig ["a"], [("a", recRec)], true, false⟩ =
      (.ok true, ⟨{ sampleConfig ["a"] with streamers := ["a"].filter (fun x => x != "a") },
        [("a", recRec)], true, false⟩) ∧
    lookupS (pruneGo [] (syncGo [] [("a", recRec)])) "a" = some recRec ∧
    Bot.onExit "a" ⟨sampleConfig [], [("a", recRec)], false, false⟩ =
      (.ok (), ⟨sampleConfig [], eraseS [("a", recRec)] "a", false, false⟩) ∧
    lookupS (eraseS [("a", recRec)] "a") "a" = none := by
  have h := c5_drain_policy "a" ⟨sampleConfig ["a"], [("a", recRec)], true, false⟩ recRec
    (by decide) (by decide) rfl rfl
  refine ⟨h.1, h.2.2.1 [] (by simp), ?_, ?_⟩
  · exact (h.2.2.2 ⟨sampleConfig [], [("a", recRec)], false, false⟩ (by decide) (by decide)).1
  · exact (h.2.2.2 ⟨sampleConfig [], [("a", recRec)], false, false⟩ (by decide) (by decide)).2

/-- C9: the registry invariant "a record marked recording owns a process
handle whose exit/error has not been reported" is preserved by every
operation: by `updateStreamer` (spawns store a fresh live handle with the
flag), by the sync step (resets clear the flag), and by the exit/error
observers; and the observers — the very events that report exit/error —
leave the affected record non-recording or delete it, so a reported process
is never still marked recording. -/
theorem c9_invariant_preserved (s : BotState) (hInv : InvRegistry s.streamers)
    (hnd : (keysS s.streamers).Nodup) :
    (∀ pr n, InvRegistry (Bot.updateStreamer pr n s).2.streamers) ∧
    (∀ cfg, InvRegistry (syncGo cfg s.streamers)) ∧
    (∀ n, InvRegistry (Bot.onExit n s).2.streamers ∧
      (∀ r, lookupS (Bot.onExit n s).2.streamers n = some r → r.recording = false)) ∧
    (∀ n, InvRegistry (Bot.onError n s).2.streamers ∧
      (∀ r, lookupS (Bot.onError n s).2.streamers n = some r → r.recording = false)) := by
  have hexit : ∀ n, InvRegistry (Bot.onExit n s).2.streamers ∧
      (∀ r, lookupS (Bot.onExit n s).2.streamers n = some r → r.recording = false) := by
    intro n
    cases hm : memS s.config.streamers n with
    | true =>
      cases hl : lookupS s.streamers n with
      | none =>
        rw [onExit_eq_mem_missing n s hm hl]
        refine ⟨hInv, ?_⟩
        intro r hr
        rw [hl] at hr
        exact Option.noConfusion hr
      | some r =>
        rw [onExit_eq_mem n s r hm hl]
        refine ⟨InvRegistry_setS s.streamers n _ hInv (by intro hh; simp at hh), ?_⟩
        intro r0 hr0
        rw [lookupS_setS_self] at hr0
        injection hr0 with hr0
        rw [← hr0]
    | false =>
      rw [onExit_eq_not_mem n s hm]
      refine ⟨InvRegistry_eraseS s.streamers n hInv, ?_⟩
      intro r hr
      rw [lookupS_eraseS_self s.streamers n hnd] at hr
      exact Option.noConfusion hr
  refine ⟨?_, fun cfg => InvRegistry_syncGo cfg s.streamers hInv, hexit, ?_⟩
  · intro pr n
    cases hl : lookupS s.streamers n with
    | none =>
      rw [updateStreamer_eq_none pr n s hl]
      exact hInv
    | some r =>
      rw [updateStreamer_eq pr n s r hl]
      exact InvRegistry_setS s.streamers n _ hInv
        (updRec_inv pr r (InvRegistry_of_lookupS s.streamers n r hInv hl))
  · intro n
    rw [onError_eq_onExit]
    exact hexit n

/-- C9 (witness): the invariant checked across the operations on a concrete
two-entity state. -/
theorem c9_witness :
    InvRegistry (Bot.updateStreamer (.success pubPayload) "b"
      ⟨sampleConfig ["a", "b"], [("a", recRec), ("b", idleRec)], true, false⟩).2.streamers ∧
    InvRegistry (syncGo ["a", "b"] [("a", recRec), ("b", idleRec)]) ∧
    InvRegistry (Bot.onExit "a"
      ⟨sampleConfig ["a", "b"], [("a", recRec), ("b", idleRec)], true, false⟩).2.streamers := by
  have h := c9_invariant_preserved
    ⟨sampleConfig ["a", "b"], [("a", recRec), ("b", idleRec)], true, false⟩
    (by unfold InvRegistry; decide) (by decide)
  exact ⟨h.1 (.success pubPayload) "b", h.2.1 ["a", "b"], (h.2.2.1 "a").1⟩

/-- C6: running the reconciliation tick twice with unchanged configuration
and unchanged probe answers starts no process on the second tick: from any
well-formed state, if a tick completes, the immediately repeated tick
completes with spawn count 0. -/
theorem c6_tick_idempotent (c : Config) (p : String → ProbeResult) (s : BotState)
    (m : Nat) (s1 : BotState) (hnd : (keysS s.streamers).Nodup)
    (h : Bot.tick c p s = (.ok m, s1)) :
    ∃ s2, Bot.tick c p s1 = (.ok 0, s2) := by
  obtain ⟨hts, hnd1, _⟩ := tick_post c p s m s1 hnd h
  exact tick_zero_of_stable c p s1 hts hnd1

/-- C6 (witness): from the empty registry with `"a"` configured and live,
the first tick spawns one recorder; the second tick spawns none. -/
theorem c6_witness :
    ∃ s2, Bot.tick (sampleConfig ["a"]) (fun _ => .success pubPayload)
        (Bot.tick (sampleConfig ["a"]) (fun _ => .success pubPayload)
          ⟨sampleConfig ["a"], [], true, true⟩).2 = (.ok 0, s2) := by
  apply c6_tick_idempotent (sampleConfig ["a"]) (fun _ => .success pubPayload)
    ⟨sampleConfig ["a"], [], true, true⟩ 1 _ (by decide)
  rfl
